import Mathlib

/-!
# Verification of the SilentLink room-session core

Shallow embedding of the SilentLink repository's session core: the crypto
layer (modelled from the spec, since crypto.ts is not among the provided
sources), the browser primitives the code relies on (btoa/atob,
JSON.stringify/parse of a session description, URL fragments and
URLSearchParams), and the room component's handlers from
src/components/Room.tsx (first document), src/unnamed/part_004 and
src/unnamed/part_005. Theorems settle the frozen claims C1 to C10 about
this code.
-/

set_option maxHeartbeats 1000000

/-! ## Session crypto (modelled from the spec)

crypto.ts is not under src/ (only its importers are), so per the spec,
section 4.1: an authenticated symmetric cipher with a fresh 12-byte IV per
call; encryptBuffer/decryptBuffer are the same operation specialized for
binary payloads. Plaintexts and ciphertexts are byte lists (naturals below
256); randomness (the IV) is an explicit argument. -/

/-- Modelled from the spec: deriveKey(passphrase, roomId), deterministic for
a given pair, keyed additionally by roomId. The key-stretching itself is
abstracted into a deterministic digest of both inputs. -/
def deriveKey (passphrase roomId : String) : List Nat :=
  ((passphrase ++ "/" ++ roomId).data.map Char.toNat).map (· % 256)

/-- Modelled from the spec: per-position keystream of the symmetric cipher,
determined by the key and the IV. -/
def ksSeed (key iv : List Nat) : Nat :=
  (key.foldl (fun a b => (a * 131 + b) % 65536) 7 +
   iv.foldl (fun a b => (a * 137 + b) % 65536) 11) % 65536

/-- Modelled from the spec: keystream byte at position i. -/
def ksByte (key iv : List Nat) (i : Nat) : Nat :=
  (ksSeed key iv * 31 + (i + 1) * 197) % 256

/-- Cipher core: combine plaintext bytes with the keystream, position-wise. -/
def encBytes (key iv : List Nat) : Nat → List Nat → List Nat
  | _, [] => []
  | i, b :: rest => (b + ksByte key iv i) % 256 :: encBytes key iv (i + 1) rest

/-- Inverse of the cipher core. -/
def decBytes (key iv : List Nat) : Nat → List Nat → List Nat
  | _, [] => []
  | i, b :: rest => (b + 256 - ksByte key iv i) % 256 :: decBytes key iv (i + 1) rest

/-- Modelled from the spec: the 16-byte authentication tag of an AEAD
ciphertext, bound to key, IV and ciphertext. -/
def tagBytes (key iv ct : List Nat) : List Nat :=
  (List.range 16).map fun j =>
    (ksSeed key iv + ct.foldl (fun a b => (a * 193 + b) % 65536) 3 + j * 59) % 256

/-- The pair returned by encryptMessage/encryptBuffer: ciphertext bytes and
the IV used. -/
structure EncryptedPayload where
  data : List Nat
  ivBytes : List Nat
deriving DecidableEq, Repr

/-- Modelled from the spec: encryptBuffer(key, plaintext) with the fresh
random IV passed explicitly; output carries ciphertext plus tag, and the IV. -/
def encryptBuffer (key iv plain : List Nat) : EncryptedPayload :=
  let ct := encBytes key iv 0 plain
  ⟨ct ++ tagBytes key iv ct, iv⟩

/-- Modelled from the spec: decryptBuffer(key, ciphertext, iv); fails closed
(none) when the authentication tag does not verify. -/
def decryptBuffer (key ct iv : List Nat) : Option (List Nat) :=
  if ct.length < 16 then none
  else
    let body := ct.take (ct.length - 16)
    let tag := ct.drop (ct.length - 16)
    if tag = tagBytes key iv body then some (decBytes key iv 0 body) else none

/-- Modelled from the spec: encryptMessage is the same AEAD operation as
encryptBuffer, used for chat text (text is its byte sequence here). -/
def encryptMessage (key iv plain : List Nat) : EncryptedPayload :=
  encryptBuffer key iv plain

/-- Modelled from the spec: decryptMessage, same operation as decryptBuffer. -/
def decryptMessage (key ct iv : List Nat) : Option (List Nat) :=
  decryptBuffer key ct iv

/-! ## Browser base64: btoa / atob (forgiving-base64) -/

/-- The base64 alphabet in index order. -/
def b64Alphabet : List Char :=
  "ABCDEFGHIJKLMNOPQRSTUVWXYZabcdefghijklmnopqrstuvwxyz0123456789+/".data

/-- The base64 character for a 6-bit value. -/
def b64Char (n : Nat) : Char := b64Alphabet.getD n 'A'

/-- Encode a byte list into base64 characters, with '=' padding, exactly
as window.btoa does on a binary string. -/
def b64Encode : List Nat → List Char
  | [] => []
  | [a] => [b64Char (a / 4 % 64), b64Char (a % 4 * 16), '=', '=']
  | [a, b] => [b64Char (a / 4 % 64), b64Char ((a % 4 * 16 + b / 16) % 64),
               b64Char (b % 16 * 4 % 64), '=']
  | a :: b :: c :: rest =>
      b64Char (a / 4 % 64) :: b64Char ((a % 4 * 16 + b / 16) % 64) ::
      b64Char ((b % 16 * 4 + c / 64) % 64) :: b64Char (c % 64) :: b64Encode rest

/-- window.btoa on a string of char codes below 256. -/
def btoaStr (s : String) : String := ⟨b64Encode (s.data.map Char.toNat)⟩

/-- The 6-bit value of a base64 character, none for a character outside the
alphabet. -/
def b64Val (c : Char) : Option Nat := b64Alphabet.findIdx? (fun x => x == c)

/-- Decode a list of 6-bit values into bytes, discarding leftover bits as the
forgiving-base64 algorithm does. -/
def b64DecodeVals : List Nat → List Nat
  | [] => []
  | [_] => []
  | [a, b] => [(a * 4 + b / 16) % 256]
  | [a, b, c] => [(a * 4 + b / 16) % 256, (b % 16 * 16 + c / 4) % 256]
  | a :: b :: c :: d :: rest =>
      (a * 4 + b / 16) % 256 :: (b % 16 * 16 + c / 4) % 256 ::
      (c % 4 * 64 + d) % 256 :: b64DecodeVals rest

/-- ASCII whitespace, stripped by forgiving-base64. -/
def isB64Ws (c : Char) : Bool :=
  c == ' ' || c == '\t' || c == '\n' || c == '\r' || c.toNat == 12

/-- window.atob: the forgiving-base64 decode; none models the thrown
InvalidCharacterError. -/
def atobStr (s : String) : Option String :=
  let t := s.data.filter (fun c => !isB64Ws c)
  let t2 := if t.length % 4 == 0 then
      match t.reverse with
      | '=' :: '=' :: r => r.reverse
      | '=' :: r => r.reverse
      | _ => t
    else t
  if t2.length % 4 == 1 then none
  else
    match t2.mapM b64Val with
    | none => none
    | some vals => some ⟨(b64DecodeVals vals).map Char.ofNat⟩

/-! ## JSON.stringify / JSON.parse for a session description -/

/-- A session description: the standard offer/answer structure with a type
and an sdp string. -/
structure SessionDesc where
  descType : String
  sdp : String
deriving DecidableEq, Repr

/-- JSON string escaping for the characters session descriptions use. -/
def jsonEscape (s : String) : String :=
  ⟨s.data.foldr (fun c acc =>
    if c == '"' then '\\' :: '"' :: acc
    else if c == '\\' then '\\' :: '\\' :: acc
    else if c == '\n' then '\\' :: 'n' :: acc
    else if c == '\r' then '\\' :: 'r' :: acc
    else c :: acc) []⟩

/-- JSON.stringify of a session description object. -/
def descToJson (d : SessionDesc) : String :=
  "\x7b\"type\":\"" ++ jsonEscape d.descType ++ "\",\"sdp\":\"" ++
    jsonEscape d.sdp ++ "\"\x7d"

/-- JSON.stringify of pc.localDescription, which may be null. -/
def jsonOfOptionDesc : Option SessionDesc → String
  | none => "null"
  | some d => descToJson d

/-- Read a JSON string body (after the opening quote): returns its unescaped
content and the remainder after the closing quote. -/
def parseJsonString : List Char → Option (String × List Char)
  | [] => none
  | '\\' :: e :: rest =>
      match (if e == 'n' then some '\n' else if e == 'r' then some '\r'
             else if e == '"' then some '"'
             else if e == '\\' then some '\\' else none) with
      | none => none
      | some c =>
        match parseJsonString rest with
        | none => none
        | some (s, r) => some (⟨c :: s.data⟩, r)
  | '"' :: rest => some ("", rest)
  | c :: rest =>
      match parseJsonString rest with
      | none => none
      | some (s, r) => some (⟨c :: s.data⟩, r)

/-- Consume an expected literal character sequence. -/
def stripLit : List Char → List Char → Option (List Char)
  | [], l => some l
  | _ :: _, [] => none
  | p :: ps, c :: cs => if p == c then stripLit ps cs else none

/-- JSON.parse specialised to the exact shape JSON.stringify produces for a
session description; anything else fails, as JSON.parse throws on the
malformed inputs the claims are about. -/
def jsonToDesc (s : String) : Option SessionDesc :=
  match stripLit "\x7b\"type\":\"".data s.data with
  | none => none
  | some r1 =>
    match parseJsonString r1 with
    | none => none
    | some (t, r2) =>
      match stripLit ",\"sdp\":\"".data r2 with
      | none => none
      | some r3 =>
        match parseJsonString r3 with
        | none => none
        | some (sd, r4) =>
          match stripLit "\x7d".data r4 with
          | none => none
          | some r5 => if r5 = [] then some ⟨t, sd⟩ else none

/-- JSON.parse(atob(input)): the decode pipeline applied to a pasted remote
payload. -/
def decodeRemotePayload (s : String) : Option SessionDesc :=
  match atobStr s with
  | none => none
  | some t => jsonToDesc t

/-! ## URL fragment serialization and URLSearchParams -/

/-- A hex digit character. -/
def hexDigit (n : Nat) : Char := "0123456789ABCDEF".data.getD n '0'

/-- Percent-encode one character (ASCII range, as used by the link format). -/
def pctEncodeChar (c : Char) : List Char :=
  ['%', hexDigit (c.toNat / 16 % 16), hexDigit (c.toNat % 16)]

/-- The URL fragment percent-encode set (C0 controls, space, quote, angle
brackets, code point 96, and non-ASCII). -/
def inFragmentEncodeSet (c : Char) : Bool :=
  c.toNat < 32 || c.toNat == 32 || c.toNat == 34 || c.toNat == 60 ||
  c.toNat == 62 || c.toNat == 96 || decide (c.toNat ≥ 127)

/-- Serialize a fragment as the url.hash setter does. -/
def fragmentEncodeChars (l : List Char) : List Char :=
  l.foldr (fun c acc => if inFragmentEncodeSet c then pctEncodeChar c ++ acc else c :: acc) []

/-- Numeric value of a hex digit character. -/
def hexVal (c : Char) : Option Nat :=
  if '0' ≤ c ∧ c ≤ '9' then some (c.toNat - 48)
  else if 'A' ≤ c ∧ c ≤ 'F' then some (c.toNat - 55)
  else if 'a' ≤ c ∧ c ≤ 'f' then some (c.toNat - 87)
  else none

/-- Worker of the form decoding, structurally recursive on a fuel bound. -/
def formDecodeAux : Nat → List Char → List Char
  | 0, _ => []
  | _ + 1, [] => []
  | fuel + 1, c :: rest =>
    if c == '+' then ' ' :: formDecodeAux fuel rest
    else if c == '%' then
      match rest with
      | h :: l2 :: rest2 =>
        match hexVal h, hexVal l2 with
        | some a, some b => Char.ofNat (a * 16 + b) :: formDecodeAux fuel rest2
        | _, _ => '%' :: formDecodeAux fuel rest
      | _ => '%' :: formDecodeAux fuel rest
    else c :: formDecodeAux fuel rest

/-- application/x-www-form-urlencoded decoding as URLSearchParams performs
on names and values: '+' becomes a space, then percent sequences are
decoded (the fuel argument of the worker is the input length, a structural
bound on the characters still to be consumed). -/
def formDecodeChars (l : List Char) : List Char := formDecodeAux l.length l

/-- Split a character list on a separator character. -/
def splitOnChar (sep : Char) : List Char → List (List Char)
  | [] => [[]]
  | c :: rest =>
    let r := splitOnChar sep rest
    if c == sep then [] :: r
    else
      match r with
      | g :: gs => (c :: g) :: gs
      | [] => [[c]]

/-- Split a parameter pair at its first '=': name before, value after (the
value is empty when no '=' is present, as in URLSearchParams). -/
def splitPair : List Char → List Char × List Char
  | [] => ([], [])
  | c :: rest =>
    if c == '=' then ([], rest)
    else
      let nv := splitPair rest
      (c :: nv.1, nv.2)

/-- URLSearchParams parsing of a query/fragment string into decoded
name/value pairs. -/
def parseParamsChars (q : List Char) : List (List Char × List Char) :=
  (splitOnChar '&' q).filterMap fun pair =>
    if pair.isEmpty then none
    else
      let nv := splitPair pair
      some (formDecodeChars nv.1, formDecodeChars nv.2)

/-- URLSearchParams.get: the first value recorded for a name. -/
def getParamChars (q : List Char) (name : List Char) : Option (List Char) :=
  ((parseParamsChars q).find? (fun p => p.1 == name)).map (·.2)

/-- Substring containment over character lists (String.includes). -/
def listContainsSub (hay needle : List Char) : Bool :=
  match hay with
  | [] => needle.isEmpty
  | c :: t => List.isPrefixOf needle (c :: t) || listContainsSub t needle

/-! ## Data model of the room component -/

/-- The handshake role state of Room.tsx. -/
inductive HandshakeRole
  | noneRole
  | initiator
  | receiver
deriving DecidableEq, Repr

/-- The connectionStatus state of Room.tsx. -/
inductive ConnStatus
  | idle
  | preparing
  | ready
  | connected
deriving DecidableEq, Repr

/-- RTCPeerConnection.connectionState values. -/
inductive PcState
  | newConn
  | connecting
  | connectedSt
  | disconnected
  | failed
  | closed
deriving DecidableEq, Repr

/-- RTCDataChannel.readyState values. -/
inductive ChanReady
  | connecting
  | openCh
  | closing
  | closedCh
deriving DecidableEq, Repr

/-- A participant entry, per src/types.ts; the stream handle is a number
standing for a MediaStream reference, none when absent. -/
structure Participant where
  id : String
  name : String
  isLocal : Bool
  isHost : Bool
  audioEnabled : Bool
  videoEnabled : Bool
  stream : Option Nat
deriving DecidableEq, Repr

/-- A chat-panel message as Room.tsx builds them; file messages carry no
text but a blob (the assembled bytes), a message type and a file name. -/
structure ChatMessage where
  id : String
  senderId : String
  senderName : String
  text : Option String
  msgType : String
  fileName : Option String
  blob : Option (List Nat)
  timestamp : Nat
deriving DecidableEq, Repr

/-- FileTransfer.status values per src/types.ts. -/
inductive FTStatus
  | pending
  | transferring
  | completed
  | failedTr
deriving DecidableEq, Repr

/-- A file-transfer list entry, per src/types.ts plus the mimeType Room.tsx
adds. -/
structure FileTransfer where
  id : String
  name : String
  size : Nat
  progress : Nat
  status : FTStatus
  mimeType : Option String
deriving DecidableEq, Repr

/-- The receive-side transfer state held in receivingFileRef. -/
structure RecvFileState where
  id : String
  name : String
  size : Nat
  received : Nat
  chunks : List (List Nat)
  mimeType : Option String
deriving DecidableEq, Repr

/-- An RTCPeerConnection as the handlers observe it: its connection state,
whether ICE gathering has reported complete, and the set descriptions. -/
structure PeerConn where
  connState : PcState
  gatheringComplete : Bool
  localDescription : Option SessionDesc
  remoteDescription : Option SessionDesc
deriving DecidableEq, Repr

/-- The file-meta envelope fields used by the receive handlers. -/
structure FileMeta where
  id : String
  name : String
  size : Nat
  mimeType : Option String
deriving DecidableEq, Repr

/-- The immutable session configuration fields the handlers read. -/
structure RoomCfg where
  roomId : String
  passphrase : String
  userName : String
deriving DecidableEq, Repr

/-- The mutable state of the Room component: the React state hooks and the
refs of src/components/Room.tsx. -/
structure RoomState where
  participants : List Participant
  messages : List ChatMessage
  files : List FileTransfer
  role : HandshakeRole
  localSDP : String
  remoteSDPInput : String
  connectionStatus : ConnStatus
  handshakeStep : Nat
  countdown : Nat
  peers : List (String × PeerConn)
  dataChannels : List (String × ChanReady)
  encryptionKey : Option (List Nat)
  receivingFile : Option RecvFileState
  windowHash : String
deriving DecidableEq, Repr

/-- A frame sent over the data channel. -/
inductive TunnelFrame
  | chatFrame (data ivBytes : List Nat)
  | metaFrame (id name : String) (size : Nat) (mime : Option String)
  | binFrame (bytes : List Nat)
deriving DecidableEq, Repr

/-- Observable effects of a handler: an alert dialog, a console diagnostic,
or a data-channel send. -/
inductive Ev
  | alerted (msg : String)
  | logged (msg : String)
  | sent (chan : String) (frame : TunnelFrame)
deriving DecidableEq, Repr

/-- Whether an effect is a data-channel send. -/
def Ev.isSend : Ev → Bool
  | .sent _ _ => true
  | _ => false

/-- Whether an effect is a user-observable diagnostic. -/
def Ev.isDiag : Ev → Bool
  | .alerted _ => true
  | .logged _ => true
  | _ => false

/-- Math.round((received / size) * 100), the progress formula of the file
handlers, computed in exact natural arithmetic: for a positive size,
(200 * received + size) / (2 * size) equals the rounded rational
received / size * 100 (the bridging theorem progressOf_eq_round proves
this identity against the mathematical floor). -/
def progressOf (received size : Nat) : Nat :=
  if size = 0 then 0 else (200 * received + size) / (2 * size)

/-- JS Map.set: replace the value of an existing key in place, else append. -/
def upsertAssoc {β : Type} (l : List (String × β)) (k : String) (v : β) :
    List (String × β) :=
  if (l.lookup k).isSome then l.map (fun p => if p.1 == k then (k, v) else p)
  else l ++ [(k, v)]

/-- The bytes of a string (char codes), as the text encoder path produces. -/
def strBytes (t : String) : List Nat := t.data.map Char.toNat

/-! ## Handlers of src/components/Room.tsx (first document) -/

namespace RoomTsx

/-- Room.tsx lines 36-42: addParticipant's state update — a merge-by-id
upsert over the participant list. The object spread keeps a field of the
existing entry only when the incoming object lacks it (modelled by an absent
stream handle). -/
def mergeParticipant (u p : Participant) : Participant :=
  { id := p.id, name := p.name, isLocal := p.isLocal, isHost := p.isHost,
    audioEnabled := p.audioEnabled, videoEnabled := p.videoEnabled,
    stream := match p.stream with | some v => some v | none => u.stream }

/-- Room.tsx lines 36-42: addParticipant. -/
def addParticipant (prev : List Participant) (p : Participant) : List Participant :=
  if ((prev.find? (fun u => u.id == p.id)).isSome) then
    prev.map (fun u => if u.id == p.id then mergeParticipant u p else u)
  else prev ++ [p]

/-- Room.tsx lines 44-49: removeParticipant — filter the list, close and
delete the peer connection, delete the data channel. -/
def removeParticipant (s : RoomState) (id : String) : RoomState :=
  { s with participants := s.participants.filter (fun u => u.id ≠ id),
           peers := s.peers.filter (fun p => p.1 ≠ id),
           dataChannels := s.dataChannels.filter (fun p => p.1 ≠ id) }

/-- Room.tsx lines 51-58: one second of the countdown effect. The interval
is armed only while a role is chosen, the status is not connected and the
countdown is positive; each firing decrements the countdown by one and does
nothing else. -/
def tickFun (s : RoomState) : RoomState :=
  if s.role ≠ .noneRole ∧ s.connectionStatus ≠ .connected ∧ 0 < s.countdown
  then { s with countdown := s.countdown - 1 } else s

/-- Room.tsx lines 153-160 and 186-192: the onIceComplete callback body. If
the peer connection reports gathering complete, the local payload is
finalized as btoa(JSON.stringify(pc.localDescription)), the status becomes
ready and the handshake step becomes 2; otherwise nothing happens. -/
def iceFinalize (s : RoomState) : RoomState :=
  match s.peers.lookup "peer" with
  | some pc =>
      if pc.gatheringComplete then
        { s with localSDP := btoaStr (jsonOfOptionDesc pc.localDescription),
                 connectionStatus := .ready, handshakeStep := 2 }
      else s
  | none => s

/-- Room.tsx lines 147-163: startAsInitiator. The environment supplies the
created offer description and whether ICE gathering is already complete when
the trailing synchronous check runs. -/
def startAsInitiator (s : RoomState) (offerDesc : SessionDesc) (g : Bool) :
    RoomState :=
  let pc : PeerConn := ⟨.newConn, g, some offerDesc, none⟩
  let s1 := { s with role := .initiator, connectionStatus := .preparing,
                     peers := upsertAssoc s.peers "peer" pc,
                     dataChannels := upsertAssoc s.dataChannels "peer" ChanReady.connecting }
  if g then iceFinalize s1 else s1

/-- The environment of handleOfferAndReply: the answer description the
connection would create, whether gathering is already complete at the
synchronous check, and whether applying the remote description succeeds. -/
structure OfferReplyEnv where
  answerDesc : SessionDesc
  gathering : Bool
  applyOk : Bool
deriving DecidableEq, Repr

/-- Room.tsx lines 176-198: handleOfferAndReply. Empty input returns
silently; a payload that fails base64 or JSON decoding is caught and
surfaces an alert; a payload whose type is not offer returns silently
before any state change; otherwise the status moves to preparing, the
connection is built and, when gathering is complete, the answer payload is
finalized. -/
def handleOfferAndReply (s : RoomState) (env : OfferReplyEnv) :
    RoomState × List Ev :=
  if s.remoteSDPInput = "" then (s, [])
  else
    match decodeRemotePayload s.remoteSDPInput with
    | none => (s, [Ev.alerted "解析失败"])
    | some d =>
      if d.descType ≠ "offer" then (s, [])
      else
        let pcBase : PeerConn := ⟨.newConn, env.gathering, none, none⟩
        let s1 := { s with connectionStatus := .preparing,
                           peers := upsertAssoc s.peers "peer" pcBase }
        if env.applyOk then
          let pc : PeerConn := ⟨.newConn, env.gathering, some env.answerDesc, some d⟩
          let s2 := { s1 with peers := upsertAssoc s1.peers "peer" pc }
          (if env.gathering then iceFinalize s2 else s2, [])
        else (s1, [Ev.alerted "解析失败"])

/-- Room.tsx lines 165-174: finalizeAsInitiator. Applies a decoded answer to
the existing peer connection; decode failures are caught with an alert;
a missing connection or a non-answer type is silently ignored. -/
def finalizeAsInitiator (s : RoomState) (applyOk : Bool) : RoomState × List Ev :=
  if s.remoteSDPInput = "" then (s, [])
  else
    match decodeRemotePayload s.remoteSDPInput with
    | none => (s, [Ev.alerted "代码解析失败"])
    | some d =>
      match s.peers.lookup "peer" with
      | some pc =>
          if d.descType = "answer" then
            if applyOk then
              ({ s with peers := upsertAssoc s.peers "peer"
                          { pc with remoteDescription := some d } }, [])
            else (s, [Ev.alerted "代码解析失败"])
          else (s, [])
      | none => (s, [])

/-- Record a new connection state on the stored peer connection. -/
def setPeerState (l : List (String × PeerConn)) (k : String) (st : PcState) :
    List (String × PeerConn) :=
  l.map fun p => if p.1 == k then (p.1, { p.2 with connState := st }) else p

/-- Room.tsx lines 108-116: the onconnectionstatechange observer. A
connected report sets the status; a disconnected, failed or closed report
removes the participant at once and, when no peer remains, resets the whole
session to idle, clearing both payloads, the hash and the countdown. -/
def onConnectionStateChange (s : RoomState) (id : String) (st : PcState) :
    RoomState :=
  let s0 := { s with peers := setPeerState s.peers id st }
  let s1 := if st = .connectedSt then { s0 with connectionStatus := .connected } else s0
  if st = .disconnected ∨ st = .failed ∨ st = .closed then
    let s2 := removeParticipant s1 id
    if s2.peers.isEmpty then
      { s2 with connectionStatus := .idle, role := .noneRole, localSDP := "",
                remoteSDPInput := "", handshakeStep := 1, windowHash := "",
                countdown := 180 }
    else s2
  else s1

/-- The fragment string built by getInviteLink, before URL serialization. -/
def mkFragmentChars (roomId pass sdp : List Char) : List Char :=
  "room=".data ++ roomId ++ "&pass=".data ++ pass ++ "&offer=".data ++ sdp

/-- Room.tsx lines 200-204: getInviteLink — the base URL (href with any
fragment removed) plus a hash serialized from
room=roomId&pass=passphrase&offer=localSDP. -/
def getInviteLink (cfg : RoomCfg) (base : String) (s : RoomState) : String :=
  base ++ "#" ++ String.mk (fragmentEncodeChars
    (mkFragmentChars cfg.roomId.data cfg.passphrase.data s.localSDP.data))

/-- Room.tsx lines 74-88: the hash auto-apply of init. When the location
hash mentions offer=, the offer parameter parsed by URLSearchParams is —
only if truthy, i.e. present and non-empty (the if (offerData) guard of
line 79) — written into the remote payload field and the role becomes
receiver (the deferred click then runs handleOfferAndReply). -/
def initHashApply (s : RoomState) (hash : String) : RoomState :=
  if listContainsSub hash.data "offer=".data then
    match getParamChars (hash.data.drop 1) "offer".data with
    | some off =>
        if off.isEmpty then s
        else { s with remoteSDPInput := String.mk off, role := .receiver }
    | none => s
  else s

/-- The chat message Room.tsx appends on a local send. -/
def mkLocalTextMsg (cfg : RoomCfg) (text : String) (now : Nat) : ChatMessage :=
  ⟨toString now, "local", cfg.userName, some text, "text", none, none, now⟩

/-- Room.tsx lines 206-212: sendMessage. Without a key nothing happens; with
a key the encrypted chat envelope is sent on every open channel and the
message is appended to the log unconditionally. -/
def sendMessage (s : RoomState) (cfg : RoomCfg) (text : String)
    (iv : List Nat) (now : Nat) : RoomState × List Ev :=
  match s.encryptionKey with
  | none => (s, [])
  | some k =>
      let enc := encryptMessage k iv (strBytes text)
      let sends := (s.dataChannels.filter (fun p => p.2 == ChanReady.openCh)).map
        (fun p => Ev.sent p.1 (TunnelFrame.chatFrame enc.data enc.ivBytes))
      ({ s with messages := s.messages ++ [mkLocalTextMsg cfg text now] }, sends)

/-- Room.tsx lines 242-246: handleFileMetaReceive — unconditionally replace
the single receive slot with a fresh state and prepend a transferring entry
to the files list. -/
def handleFileMetaReceive (s : RoomState) (meta : FileMeta) : RoomState :=
  { s with receivingFile := some ⟨meta.id, meta.name, meta.size, 0, [], meta.mimeType⟩,
           files := ⟨meta.id, meta.name, meta.size, 0, FTStatus.transferring,
                     meta.mimeType⟩ :: s.files }

/-- The message type Room.tsx derives from a mime type. -/
def typeOfMime : Option String → String
  | some m => if m.startsWith "image/" then "image"
              else if m.startsWith "video/" then "video" else "file"
  | none => "file"

/-- The chat message appended when an inbound transfer finalizes: the blob
is the assembled chunks. -/
def mkFileDoneMsg (st : RecvFileState) (now : Nat) : ChatMessage :=
  ⟨st.id, "peer", "对方", none, typeOfMime st.mimeType, some st.name,
   some st.chunks.flatten, now⟩

/-- Room.tsx lines 248-270: handleFileChunkReceive. With no pending state or
no key nothing happens. Otherwise the first 12 bytes are the IV and the rest
the ciphertext; a decryption failure is caught with a console diagnostic;
on success the decrypted chunk is accumulated, the progress is recomputed,
and once receivedBytes reaches the declared size the transfer is finalized
(blob assembled, message appended, entry completed) and the slot cleared. -/
def handleFileChunkReceive (s : RoomState) (data : List Nat) (now : Nat) :
    RoomState × List Ev :=
  match s.receivingFile, s.encryptionKey with
  | some st, some k =>
      let iv := data.take 12
      let encData := data.drop 12
      match decryptBuffer k encData iv with
      | none => (s, [Ev.logged "Decryption error"])
      | some chunk =>
          let st2 : RecvFileState :=
            { st with chunks := st.chunks ++ [chunk],
                      received := st.received + chunk.length }
          let files1 := s.files.map fun f =>
            if f.id == st2.id then { f with progress := progressOf st2.received st2.size } else f
          if st2.size ≤ st2.received then
            ({ s with files := files1.map fun f =>
                        if f.id == st2.id then { f with status := FTStatus.completed } else f,
                      messages := s.messages ++ [mkFileDoneMsg st2 now],
                      receivingFile := none }, [])
          else ({ s with files := files1, receivingFile := some st2 }, [])
  | _, _ => (s, [])

/-- Room.tsx lines 128-144, chat branch of dc.onmessage: decrypt the
envelope and append a message attributed to the remote sender; a key absent
or a failing decryption leaves the log unchanged (the failure is caught). -/
def chatRecv (s : RoomState) (remoteId : String) (data iv : List Nat)
    (now : Nat) : RoomState :=
  match s.encryptionKey with
  | some k =>
      match decryptMessage k data iv with
      | some textBytes =>
          { s with messages := s.messages ++
              [⟨toString now, remoteId, "对方", some (String.mk (textBytes.map Char.ofNat)),
                "text", none, none, now⟩] }
      | none => s
  | none => s

end RoomTsx

/-! ## Variant handlers of src/unnamed/part_005 -/

namespace PartFive

/-- part_005 lines 198-207: sendMessage. Unlike Room.tsx, the message is
appended to the log only when it was actually sent on some open channel. -/
def sendMessage (s : RoomState) (cfg : RoomCfg) (text : String)
    (iv : List Nat) (now : Nat) : RoomState × List Ev :=
  match s.encryptionKey with
  | none => (s, [])
  | some k =>
      let enc := encryptMessage k iv (strBytes text)
      let sends := (s.dataChannels.filter (fun p => p.2 == ChanReady.openCh)).map
        (fun p => Ev.sent p.1 (TunnelFrame.chatFrame enc.data enc.ivBytes))
      (if sends.isEmpty then s
       else { s with messages := s.messages ++ [RoomTsx.mkLocalTextMsg cfg text now] },
       sends)

/-- part_005 lines 168-196: handleOfferAndReply. Unlike Room.tsx, a payload
whose type is not offer surfaces an alert, and on success the role is also
set to receiver. -/
def handleOfferAndReply (s : RoomState) (env : RoomTsx.OfferReplyEnv) :
    RoomState × List Ev :=
  if s.remoteSDPInput = "" then (s, [])
  else
    match decodeRemotePayload s.remoteSDPInput with
    | none => (s, [Ev.alerted "解析失败，请检查 Offer 代码完整性。"])
    | some d =>
      if d.descType ≠ "offer" then
        (s, [Ev.alerted "代码类型错误。接收方必须粘贴发起方的 Offer。"])
      else
        let pcBase : PeerConn := ⟨.newConn, env.gathering, none, none⟩
        let s1 := { s with role := .receiver, connectionStatus := .preparing,
                           peers := upsertAssoc s.peers "peer" pcBase }
        if env.applyOk then
          let pc : PeerConn := ⟨.newConn, env.gathering, some env.answerDesc, some d⟩
          let s2 := { s1 with peers := upsertAssoc s1.peers "peer" pc }
          (if env.gathering then RoomTsx.iceFinalize s2 else s2, [])
        else (s1, [Ev.alerted "解析失败，请检查 Offer 代码完整性。"])

end PartFive

/-! ## Variant handler of src/unnamed/part_004 (first document) -/

namespace PartFour

/-- part_004 line 103: addParticipant — keeps the list unchanged when an
entry with the same id exists, appending only unknown ids. -/
def addParticipant (prev : List Participant) (p : Participant) : List Participant :=
  if ((prev.find? (fun u => u.id == p.id)).isSome) then prev else prev ++ [p]

end PartFour

/-- The progress formula in exact natural arithmetic agrees with the
mathematical rounding of received / size * 100 whenever the size is
positive. -/
theorem progressOf_eq_round (r s : Nat) (h : 0 < s) :
    (progressOf r s : ℤ) = ⌊(r : ℚ) / (s : ℚ) * 100 + 1 / 2⌋ := by
  have hs : s ≠ 0 := Nat.pos_iff_ne_zero.mp h
  have hq : ((s : ℚ)) ≠ 0 := by exact_mod_cast hs
  have key : (r : ℚ) / (s : ℚ) * 100 + 1 / 2
      = ((((200 * r + s : ℕ) : ℤ) : ℚ)) / (((2 * s : ℕ) : ℚ)) := by
    push_cast
    field_simp
    ring
  rw [progressOf, if_neg hs, key]
  have := Rat.floor_intCast_div_natCast ((200 * r + s : ℕ) : ℤ) (2 * s)
  rw [this]
  push_cast [Int.ofNat_div]
  norm_num

/-! ## The step relation of the Room.tsx session

One case per state-changing operation of the embedded component: the
countdown tick, the user editing the remote-payload textarea, the role
buttons, the two handshake flows, the environment reporting ICE gathering
complete, the connection-state observer, the link auto-apply, sending a
chat message, and the three data-channel receive paths. -/

/-- The environment flips the stored peer connection's gathering flag to
complete (the event that fires onicegatheringstatechange). -/
def setGatherDone (l : List (String × PeerConn)) (k : String) :
    List (String × PeerConn) :=
  l.map fun p => if p.1 == k then (p.1, { p.2 with gatheringComplete := true }) else p

/-- A data channel appears or changes readyState (createDataChannel,
ondatachannel, open/close events). -/
def chanStateFun (s : RoomState) (id : String) (st : ChanReady) : RoomState :=
  { s with dataChannels := upsertAssoc s.dataChannels id st }

/-- Labels of the transitions of the embedded Room.tsx session. -/
inductive StepLabel
  | tick
  | setInput (t : String)
  | chooseReceiver
  | startInit (d : SessionDesc) (g : Bool)
  | gatherDone
  | offerReply (env : RoomTsx.OfferReplyEnv)
  | finalizeInit (ok : Bool)
  | connChange (id : String) (st : PcState)
  | hashApply (h : String)
  | sendMsg (cfg : RoomCfg) (text : String) (iv : List Nat) (now : Nat)
  | metaRecv (m : FileMeta)
  | chunkRecv (bytes : List Nat) (now : Nat)
  | chatMsgRecv (remoteId : String) (data iv : List Nat) (now : Nat)
  | chanState (id : String) (st : ChanReady)

/-- The transition relation of the embedded Room.tsx session: each case is
one handler (or environment event) applied to the current state. -/
inductive Step : RoomState → StepLabel → RoomState → Prop
  | tick (s : RoomState) : Step s .tick (RoomTsx.tickFun s)
  | setInput (s : RoomState) (t : String) :
      Step s (.setInput t) { s with remoteSDPInput := t }
  | chooseReceiver (s : RoomState) :
      Step s .chooseReceiver { s with role := .receiver }
  | startInit (s : RoomState) (d : SessionDesc) (g : Bool) :
      Step s (.startInit d g) (RoomTsx.startAsInitiator s d g)
  | gatherDone (s : RoomState) :
      Step s .gatherDone (RoomTsx.iceFinalize { s with peers := setGatherDone s.peers "peer" })
  | offerReply (s : RoomState) (env : RoomTsx.OfferReplyEnv) :
      Step s (.offerReply env) (RoomTsx.handleOfferAndReply s env).1
  | finalizeInit (s : RoomState) (ok : Bool) :
      Step s (.finalizeInit ok) (RoomTsx.finalizeAsInitiator s ok).1
  | connChange (s : RoomState) (id : String) (st : PcState) :
      Step s (.connChange id st) (RoomTsx.onConnectionStateChange s id st)
  | hashApply (s : RoomState) (h : String) :
      Step s (.hashApply h) (RoomTsx.initHashApply s h)
  | sendMsg (s : RoomState) (cfg : RoomCfg) (text : String) (iv : List Nat) (now : Nat) :
      Step s (.sendMsg cfg text iv now) (RoomTsx.sendMessage s cfg text iv now).1
  | metaRecv (s : RoomState) (m : FileMeta) :
      Step s (.metaRecv m) (RoomTsx.handleFileMetaReceive s m)
  | chunkRecv (s : RoomState) (bytes : List Nat) (now : Nat) :
      Step s (.chunkRecv bytes now) (RoomTsx.handleFileChunkReceive s bytes now).1
  | chatMsgRecv (s : RoomState) (remoteId : String) (data iv : List Nat) (now : Nat) :
      Step s (.chatMsgRecv remoteId data iv now) (RoomTsx.chatRecv s remoteId data iv now)
  | chanState (s : RoomState) (id : String) (st : ChanReady) :
      Step s (.chanState id st) (chanStateFun s id st)

/-! ## Claim C1: encrypt/decrypt round trip -/

/-- The cipher core preserves length. -/
theorem length_encBytes (key iv : List Nat) :
    ∀ (i : Nat) (p : List Nat), (encBytes key iv i p).length = p.length := by
  intro i p
  induction p generalizing i with
  | nil => rfl
  | cons b rest ih => simp [encBytes, ih]

/-- The keystream byte is below 256. -/
theorem ksByte_lt (key iv : List Nat) (i : Nat) : ksByte key iv i < 256 :=
  Nat.mod_lt _ (by norm_num)

/-- Decrypting the cipher core undoes it on byte lists. -/
theorem decBytes_encBytes (key iv : List Nat) :
    ∀ (i : Nat) (p : List Nat), (∀ b ∈ p, b < 256) →
      decBytes key iv i (encBytes key iv i p) = p := by
  intro i p
  induction p generalizing i with
  | nil => intro _; rfl
  | cons b rest ih =>
      intro h
      have hb : b < 256 := h b (List.mem_cons_self b rest)
      have hk : ksByte key iv i < 256 := ksByte_lt key iv i
      have hrest : ∀ x ∈ rest, x < 256 := fun x hx => h x (List.mem_cons_of_mem b hx)
      simp only [encBytes, decBytes, ih (i + 1) hrest, List.cons.injEq, and_true]
      omega

/-- The authentication tag is 16 bytes. -/
theorem length_tagBytes (key iv ct : List Nat) : (tagBytes key iv ct).length = 16 := by
  simp [tagBytes]

/-- C1: for every derived key and every plaintext P (a byte list), with any
IV, decrypting the result of encrypting P with that key returns P, both for
the message operations encryptMessage/decryptMessage and for the buffer
operations encryptBuffer/decryptBuffer. -/
theorem c1_encrypt_decrypt_roundtrip (key iv p : List Nat)
    (h : ∀ b ∈ p, b < 256) :
    decryptMessage key (encryptMessage key iv p).data
      (encryptMessage key iv p).ivBytes = some p ∧
    decryptBuffer key (encryptBuffer key iv p).data
      (encryptBuffer key iv p).ivBytes = some p := by
  have core : decryptBuffer key (encryptBuffer key iv p).data
      (encryptBuffer key iv p).ivBytes = some p := by
    simp only [encryptBuffer, decryptBuffer]
    have hlen : (encBytes key iv 0 p ++ tagBytes key iv (encBytes key iv 0 p)).length
        = p.length + 16 := by
      simp [List.length_append, length_encBytes, length_tagBytes]
    rw [hlen]
    have h16 : ¬ (p.length + 16 < 16) := by omega
    rw [if_neg h16]
    have hsub : p.length + 16 - 16 = (encBytes key iv 0 p).length := by
      simp [length_encBytes]
    rw [hsub, List.take_left, List.drop_left, if_pos rfl, decBytes_encBytes key iv 0 p h]
  exact ⟨core, core⟩

/-- Witness for C1 at a concrete key, IV and plaintext. -/
theorem c1_roundtrip_witness :
    decryptMessage [7, 3] (encryptMessage [7, 3] [1, 2, 3, 4, 5, 6, 7, 8, 9, 10, 11, 12] [72, 105]).data
      (encryptMessage [7, 3] [1, 2, 3, 4, 5, 6, 7, 8, 9, 10, 11, 12] [72, 105]).ivBytes = some [72, 105] ∧
    decryptBuffer [7, 3] (encryptBuffer [7, 3] [1, 2, 3, 4, 5, 6, 7, 8, 9, 10, 11, 12] [72, 105]).data
      (encryptBuffer [7, 3] [1, 2, 3, 4, 5, 6, 7, 8, 9, 10, 11, 12] [72, 105]).ivBytes = some [72, 105] :=
  c1_encrypt_decrypt_roundtrip [7, 3] [1, 2, 3, 4, 5, 6, 7, 8, 9, 10, 11, 12] [72, 105] (by decide)

/-! ## Claim C2: sendMessage with no open data channel -/

/-- A convenient all-empty session state. -/
def baseState : RoomState :=
  { participants := [], messages := [], files := [], role := .noneRole,
    localSDP := "", remoteSDPInput := "", connectionStatus := .idle,
    handshakeStep := 1, countdown := 180, peers := [], dataChannels := [],
    encryptionKey := none, receivingFile := none, windowHash := "" }

/-- No data channel of the state is open. -/
abbrev noOpenChannel (s : RoomState) : Prop :=
  ∀ p ∈ s.dataChannels, p.2 ≠ ChanReady.openCh

/-- A session with a derived key whose only data channel is closed. -/
def c2State : RoomState :=
  { baseState with role := .initiator, connectionStatus := .ready,
                   handshakeStep := 2, localSDP := "QQ==",
                   dataChannels := [("peer", ChanReady.closedCh)],
                   encryptionKey := some [5, 9] }

/-- The configuration used by the concrete C2 and C7 states. -/
def c2Cfg : RoomCfg := ⟨"room1", "pw1", "alice"⟩

/-- C2 counterexample: the claim says that with no data channel open,
sendMessage does not append to the sent-message log and the messages list
is unchanged; in Room.tsx (lines 206-212) the append is unconditional, so
on a state whose only channel is closed the messages list grows. -/
theorem c2_counterexample :
    (RoomTsx.sendMessage c2State c2Cfg "hi" [1, 2, 3] 42).1.messages
      ≠ c2State.messages := by decide

/-- Channels filtered for open are empty when none is open. -/
theorem filter_open_eq_nil (l : List (String × ChanReady))
    (h : ∀ p ∈ l, p.2 ≠ ChanReady.openCh) :
    l.filter (fun p => p.2 == ChanReady.openCh) = [] := by
  simp only [List.filter_eq_nil_iff]
  intro a hab
  exact fun hc => (h a hab) (by simpa using hc)

/-- C2 (amended): with no open data channel, sendMessage transmits nothing
and surfaces no diagnostic in either cited variant; the part_005 variant
leaves the messages list unchanged, but the Room.tsx variant still appends
the message to the log whenever the key is present (and is a silent no-op
when it is absent). -/
theorem c2_send_no_open_channel (s : RoomState) (cfg : RoomCfg) (text : String)
    (iv : List Nat) (now : Nat) (h : noOpenChannel s) :
    (RoomTsx.sendMessage s cfg text iv now).2 = [] ∧
    (PartFive.sendMessage s cfg text iv now).2 = [] ∧
    (PartFive.sendMessage s cfg text iv now).1.messages = s.messages ∧
    (s.encryptionKey = none → (RoomTsx.sendMessage s cfg text iv now).1 = s) ∧
    (∀ k, s.encryptionKey = some k →
      (RoomTsx.sendMessage s cfg text iv now).1.messages
        = s.messages ++ [RoomTsx.mkLocalTextMsg cfg text now]) := by
  have hnil : s.dataChannels.filter (fun p => p.2 == ChanReady.openCh) = [] :=
    filter_open_eq_nil s.dataChannels h
  cases hk : s.encryptionKey with
  | none =>
      refine ⟨?_, ?_, ?_, fun _ => ?_, fun k hks => ?_⟩ <;>
        simp only [RoomTsx.sendMessage, PartFive.sendMessage, hk] <;>
        simp_all
  | some k =>
      refine ⟨?_, ?_, ?_, fun hkn => ?_, fun k2 hks => ?_⟩ <;>
        simp only [RoomTsx.sendMessage, PartFive.sendMessage, hk, hnil,
          List.map_nil, List.isEmpty_nil, if_true] <;>
        simp_all

/-- Witness for C2 at the concrete closed-channel state. -/
theorem c2_witness :
    (RoomTsx.sendMessage c2State c2Cfg "hi" [1, 2, 3] 42).2 = [] ∧
    (PartFive.sendMessage c2State c2Cfg "hi" [1, 2, 3] 42).2 = [] ∧
    (PartFive.sendMessage c2State c2Cfg "hi" [1, 2, 3] 42).1.messages = c2State.messages ∧
    (c2State.encryptionKey = none →
      (RoomTsx.sendMessage c2State c2Cfg "hi" [1, 2, 3] 42).1 = c2State) ∧
    (∀ k, c2State.encryptionKey = some k →
      (RoomTsx.sendMessage c2State c2Cfg "hi" [1, 2, 3] 42).1.messages
        = c2State.messages ++ [RoomTsx.mkLocalTextMsg c2Cfg "hi" 42]) :=
  c2_send_no_open_channel c2State c2Cfg "hi" [1, 2, 3] 42 (by decide)

/-! ## Claim C3: handshake expiry -/

/-- An initiator at ready, one second before the countdown elapses, with a
finalized local payload and a stored peer connection. -/
def c3State : RoomState :=
  { baseState with role := .initiator, connectionStatus := .ready,
                   handshakeStep := 2, countdown := 1, localSDP := "QQ==",
                   remoteSDPInput := "",
                   peers := [("peer", ⟨.newConn, true, some ⟨"offer", "v0"⟩, none⟩)],
                   encryptionKey := some [5] }

/-- C3 counterexample: the claim says that when the 180-second countdown
elapses before connected, the coordinator surfaces an expiry condition and a
subsequent reset returns the handshake to idle with payloads cleared. In the
code the countdown effect (Room.tsx lines 51-58) only decrements: the tick
that reaches zero changes nothing but the counter, afterwards the timer is
disarmed (a further tick is the identity), and the state remains ready with
its payload cached and its connection kept — no expiry condition exists and
no reset happens. -/
theorem c3_counterexample :
    RoomTsx.tickFun c3State = { c3State with countdown := 0 } ∧
    RoomTsx.tickFun (RoomTsx.tickFun c3State) = RoomTsx.tickFun c3State ∧
    (RoomTsx.tickFun c3State).connectionStatus = ConnStatus.ready ∧
    (RoomTsx.tickFun c3State).localSDP = "QQ==" ∧
    (RoomTsx.tickFun c3State).role = HandshakeRole.initiator ∧
    (RoomTsx.tickFun c3State).peers = c3State.peers := by decide

/-- C3 (amended): the countdown effect merely decrements while a role is
chosen, the session is not connected and the counter is positive, and stops
at zero; a tick never surfaces anything and never resets: role, phase, both
payloads, peers and the receive slot are untouched, and once the counter is
zero the tick is the identity. -/
theorem c3_countdown_no_expiry (s : RoomState) :
    (RoomTsx.tickFun s).role = s.role ∧
    (RoomTsx.tickFun s).connectionStatus = s.connectionStatus ∧
    (RoomTsx.tickFun s).localSDP = s.localSDP ∧
    (RoomTsx.tickFun s).remoteSDPInput = s.remoteSDPInput ∧
    (RoomTsx.tickFun s).peers = s.peers ∧
    (RoomTsx.tickFun s).receivingFile = s.receivingFile ∧
    (s.countdown = 0 → RoomTsx.tickFun s = s) ∧
    (s.role ≠ .noneRole → s.connectionStatus ≠ .connected → 0 < s.countdown →
      (RoomTsx.tickFun s).countdown = s.countdown - 1) := by
  unfold RoomTsx.tickFun
  split
  · next hcond =>
      refine ⟨rfl, rfl, rfl, rfl, rfl, rfl, fun h0 => ?_, fun _ _ _ => rfl⟩
      omega
  · next hcond =>
      refine ⟨rfl, rfl, rfl, rfl, rfl, rfl, fun _ => rfl, fun h1 h2 h3 => ?_⟩
      exact absurd ⟨h1, h2, h3⟩ hcond

/-- Witness for C3 at the concrete pre-expiry state. -/
theorem c3_witness :
    ({ c3State with countdown := 0 }.countdown = 0 →
      RoomTsx.tickFun { c3State with countdown := 0 } = { c3State with countdown := 0 }) ∧
    (RoomTsx.tickFun c3State).countdown = c3State.countdown - 1 :=
  ⟨(c3_countdown_no_expiry { c3State with countdown := 0 }).2.2.2.2.2.2.1,
   (c3_countdown_no_expiry c3State).2.2.2.2.2.2.2
     (by decide) (by decide) (by decide)⟩

/-! ## Claim C4: malformed remote payload for the receiver -/

/-- A decodable payload with the wrong description type for a receiver: the
base64 of the JSON of an answer. -/
def c4WrongType : SessionDesc := ⟨"answer", "v0"⟩

/-- A receiver state whose pasted payload decodes to an answer. -/
def c4State : RoomState :=
  { baseState with role := .receiver,
                   remoteSDPInput := btoaStr (descToJson c4WrongType) }

/-- An arbitrary concrete environment for the handshake handlers. -/
def c4Env : RoomTsx.OfferReplyEnv := ⟨⟨"answer", "a0"⟩, true, true⟩

/-- C4 counterexample: the claim says every malformed payload (including a
wrong description type) leaves the receiver retry-capable WITH a diagnostic
surfaced to the caller. In Room.tsx (lines 176-198) a payload that decodes
to a non-offer type is dropped silently: the state is unchanged and the
effect list is empty — no diagnostic at all. -/
theorem c4_counterexample :
    decodeRemotePayload c4State.remoteSDPInput = some c4WrongType ∧
    RoomTsx.handleOfferAndReply c4State c4Env = (c4State, []) := by
  constructor
  · rfl
  · rfl

/-- C4 (amended): processing a malformed remote payload never crashes and
never advances the handshake phase, leaving the role retry-capable: an
empty paste is silently ignored by both variants; a payload failing base64
or JSON decoding leaves the state unchanged and surfaces an alert in both
variants; a payload with the wrong description type leaves the state
unchanged, with an alert in the part_005 variant but silently (no
diagnostic) in the Room.tsx variant. -/
theorem c4_malformed_payload (s : RoomState) (env : RoomTsx.OfferReplyEnv) :
    (s.remoteSDPInput = "" →
      RoomTsx.handleOfferAndReply s env = (s, []) ∧
      PartFive.handleOfferAndReply s env = (s, [])) ∧
    (s.remoteSDPInput ≠ "" → decodeRemotePayload s.remoteSDPInput = none →
      RoomTsx.handleOfferAndReply s env = (s, [Ev.alerted "解析失败"]) ∧
      PartFive.handleOfferAndReply s env
        = (s, [Ev.alerted "解析失败，请检查 Offer 代码完整性。"])) ∧
    (∀ d, decodeRemotePayload s.remoteSDPInput = some d → d.descType ≠ "offer" →
      RoomTsx.handleOfferAndReply s env = (s, []) ∧
      PartFive.handleOfferAndReply s env
        = (s, [Ev.alerted "代码类型错误。接收方必须粘贴发起方的 Offer。"])) := by
  refine ⟨fun hem => ?_, fun hne hdec => ?_, fun d hdec hty => ?_⟩
  · constructor <;>
      simp [RoomTsx.handleOfferAndReply, PartFive.handleOfferAndReply, hem]
  · constructor <;>
      simp [RoomTsx.handleOfferAndReply, PartFive.handleOfferAndReply, hne, hdec]
  · have hne : s.remoteSDPInput ≠ "" := by
      intro hem
      rw [hem] at hdec
      rw [show decodeRemotePayload "" = none from rfl] at hdec
      exact Option.noConfusion hdec
    constructor <;>
      simp [RoomTsx.handleOfferAndReply, PartFive.handleOfferAndReply, hne, hdec, hty]

/-- Witness for C4 at the concrete wrong-type payload. -/
theorem c4_witness :
    RoomTsx.handleOfferAndReply c4State c4Env = (c4State, []) ∧
    PartFive.handleOfferAndReply c4State c4Env
      = (c4State, [Ev.alerted "代码类型错误。接收方必须粘贴发起方的 Offer。"]) :=
  (c4_malformed_payload c4State c4Env).2.2 c4WrongType (by rfl) (by decide)

/-! ## Claim C5: payloads only finalized after ICE gathering completes -/

/-- What the onIceComplete callback can do: either nothing, or — exactly
when the stored peer connection reports gathering complete — finalize the
payload and move to ready without touching the peer map. -/
theorem iceFinalize_cases (s : RoomState) :
    RoomTsx.iceFinalize s = s ∨
    ((RoomTsx.iceFinalize s).peers = s.peers ∧
     (RoomTsx.iceFinalize s).connectionStatus = ConnStatus.ready ∧
     ∃ pc, s.peers.lookup "peer" = some pc ∧ pc.gatheringComplete = true) := by
  unfold RoomTsx.iceFinalize
  split
  · next pc heq =>
      by_cases hg : pc.gatheringComplete
      · rw [if_pos hg]
        exact Or.inr ⟨rfl, rfl, pc, heq, hg⟩
      · rw [if_neg hg]
        exact Or.inl rfl
  · exact Or.inl rfl

/-- The C5 obligation for one transition from s to s2: a change that leaves
a non-empty local payload, or an arrival at ready, happens only with a
stored peer connection whose gathering is complete. -/
def C5Goal (s s2 : RoomState) : Prop :=
  (s2.localSDP ≠ s.localSDP → s2.localSDP ≠ "" →
    ∃ pc, s2.peers.lookup "peer" = some pc ∧ pc.gatheringComplete = true) ∧
  (s2.connectionStatus = ConnStatus.ready → s.connectionStatus ≠ ConnStatus.ready →
    ∃ pc, s2.peers.lookup "peer" = some pc ∧ pc.gatheringComplete = true)

/-- The obligation holds when the payload and the status are preserved. -/
theorem c5goal_of_preserved {s s2 : RoomState}
    (hl : s2.localSDP = s.localSDP) (hs : s2.connectionStatus = s.connectionStatus) :
    C5Goal s s2 :=
  ⟨fun h1 _ => absurd hl h1, fun h1 h2 => absurd (hs.symm.trans h1) h2⟩

/-- The obligation holds when the payload is preserved and the target is not
at ready. -/
theorem c5goal_of_not_ready {s s2 : RoomState}
    (hl : s2.localSDP = s.localSDP) (hs : s2.connectionStatus ≠ ConnStatus.ready) :
    C5Goal s s2 :=
  ⟨fun h1 _ => absurd hl h1, fun h1 _ => absurd h1 hs⟩

/-- The obligation holds outright with a complete-gathering witness. -/
theorem c5goal_of_witness {s s2 : RoomState} (pc : PeerConn)
    (hpc : s2.peers.lookup "peer" = some pc) (hg : pc.gatheringComplete = true) :
    C5Goal s s2 :=
  ⟨fun _ _ => ⟨pc, hpc, hg⟩, fun _ _ => ⟨pc, hpc, hg⟩⟩

/-- The obligation is stable under running the onIceComplete callback. -/
theorem c5goal_iceFinalize (s base : RoomState) (h : C5Goal s base) :
    C5Goal s (RoomTsx.iceFinalize base) := by
  rcases iceFinalize_cases base with he | ⟨hp, _, pc, hpc, hg⟩
  · rw [he]; exact h
  · exact c5goal_of_witness pc (by rw [hp]; exact hpc) hg

/-- The connection-state observer leaves the payload alone or clears it, and
leaves the status alone or moves it to connected or idle. -/
theorem connChange_fields (s : RoomState) (id : String) (st : PcState) :
    ((RoomTsx.onConnectionStateChange s id st).localSDP = s.localSDP ∨
     (RoomTsx.onConnectionStateChange s id st).localSDP = "") ∧
    ((RoomTsx.onConnectionStateChange s id st).connectionStatus = s.connectionStatus ∨
     (RoomTsx.onConnectionStateChange s id st).connectionStatus = ConnStatus.connected ∨
     (RoomTsx.onConnectionStateChange s id st).connectionStatus = ConnStatus.idle) := by
  unfold RoomTsx.onConnectionStateChange RoomTsx.removeParticipant
  split_ifs <;> try simp
  all_goals (constructor <;> split <;> simp)

/-- C5: along every transition of the embedded Room.tsx session, the local
payload localSDP changes to a (different) non-empty string only while the
stored peer connection reports ICE gathering complete, and the phase
advances to ready only under the same condition — so a non-empty payload is
only ever finalized and exposed after gathering completed. -/
theorem c5_payload_only_after_gathering (s s2 : RoomState) (l : StepLabel)
    (hstep : Step s l s2) : C5Goal s s2 := by
  cases hstep with
  | tick =>
      unfold RoomTsx.tickFun
      split
      · exact c5goal_of_preserved rfl rfl
      · exact c5goal_of_preserved rfl rfl
  | setInput t => exact c5goal_of_preserved rfl rfl
  | chooseReceiver => exact c5goal_of_preserved rfl rfl
  | startInit d g =>
      unfold RoomTsx.startAsInitiator
      by_cases hg : g
      · rw [if_pos hg]
        exact c5goal_iceFinalize s _
          (c5goal_of_not_ready rfl (fun hcon => ConnStatus.noConfusion hcon))
      · rw [if_neg hg]
        exact c5goal_of_not_ready rfl (fun hcon => ConnStatus.noConfusion hcon)
  | gatherDone =>
      exact c5goal_iceFinalize s _ (c5goal_of_preserved rfl rfl)
  | offerReply env =>
      unfold RoomTsx.handleOfferAndReply
      split
      · exact c5goal_of_preserved rfl rfl
      · split
        · exact c5goal_of_preserved rfl rfl
        · split
          · exact c5goal_of_preserved rfl rfl
          · dsimp only
            split_ifs with hok hg
            · exact c5goal_iceFinalize s _
                (c5goal_of_not_ready rfl (fun hcon => ConnStatus.noConfusion hcon))
            · exact c5goal_of_not_ready rfl (fun hcon => ConnStatus.noConfusion hcon)
            · exact c5goal_of_not_ready rfl (fun hcon => ConnStatus.noConfusion hcon)
  | finalizeInit ok =>
      unfold RoomTsx.finalizeAsInitiator
      split
      · exact c5goal_of_preserved rfl rfl
      · split
        · exact c5goal_of_preserved rfl rfl
        · split
          · split_ifs <;> exact c5goal_of_preserved rfl rfl
          · exact c5goal_of_preserved rfl rfl
  | connChange id st =>
      obtain ⟨hl, hs⟩ := connChange_fields s id st
      constructor
      · intro h1 h2
        rcases hl with hl | hl
        · exact absurd hl h1
        · exact absurd hl h2
      · intro h1 h2
        rcases hs with hs | hs | hs
        · exact absurd (hs.symm.trans h1) h2
        · rw [h1] at hs; exact absurd hs (by decide)
        · rw [h1] at hs; exact absurd hs (by decide)
  | hashApply h =>
      unfold RoomTsx.initHashApply
      split
      · split
        · split
          · exact c5goal_of_preserved rfl rfl
          · exact c5goal_of_preserved rfl rfl
        · exact c5goal_of_preserved rfl rfl
      · exact c5goal_of_preserved rfl rfl
  | sendMsg cfg text iv now =>
      unfold RoomTsx.sendMessage
      split
      · exact c5goal_of_preserved rfl rfl
      · exact c5goal_of_preserved rfl rfl
  | metaRecv m => exact c5goal_of_preserved rfl rfl
  | chunkRecv bytes now =>
      unfold RoomTsx.handleFileChunkReceive
      split
      · next st0 k0 hrf hk =>
          cases hd : decryptBuffer k0 (List.drop 12 bytes) (List.take 12 bytes) with
          | none => simp only [hd]; exact c5goal_of_preserved rfl rfl
          | some chunk =>
              simp only [hd]
              split_ifs <;> exact c5goal_of_preserved rfl rfl
      · exact c5goal_of_preserved rfl rfl
  | chatMsgRecv remoteId data iv now =>
      unfold RoomTsx.chatRecv
      split
      · split
        · exact c5goal_of_preserved rfl rfl
        · exact c5goal_of_preserved rfl rfl
      · exact c5goal_of_preserved rfl rfl
  | chanState id st => exact c5goal_of_preserved rfl rfl

/-- A state about to learn that ICE gathering completed. -/
def c5State : RoomState :=
  { baseState with role := .initiator, connectionStatus := .preparing,
                   peers := [("peer", ⟨.newConn, false, some ⟨"offer", "v0"⟩, none⟩)],
                   dataChannels := [("peer", ChanReady.connecting)] }

/-- Witness for C5: the gathering-complete transition from the concrete
preparing state finalizes a non-empty payload, and the theorem yields the
complete-gathering witness. -/
theorem c5_witness :
    ∃ pc, (RoomTsx.iceFinalize { c5State with
        peers := setGatherDone c5State.peers "peer" }).peers.lookup "peer"
          = some pc ∧ pc.gatheringComplete = true :=
  (c5_payload_only_after_gathering c5State _ .gatherDone
    (Step.gatherDone c5State)).1 (by decide) (by decide)

/-! ## Claim C6: the participant list mutation -/

/-- An existing remote participant with audio on. -/
def c6Existing : Participant := ⟨"peer", "远端成员", false, false, true, true, some 1⟩

/-- A concurrent update for the same participant carrying audio off. -/
def c6Update : Participant := ⟨"peer", "远端成员", false, false, false, true, some 1⟩

/-- C6 counterexample: the claim says every mutation of the participant list
is a merge-by-id upsert, never discarding an update's fields. In part_004
(line 103) addParticipant returns the previous list unchanged whenever the
id already exists, so the arriving audioEnabled := false is lost entirely. -/
theorem c6_counterexample :
    PartFour.addParticipant [c6Existing] c6Update = [c6Existing] ∧
    c6Existing.audioEnabled = true ∧ c6Update.audioEnabled = false := by decide

/-- C6 (amended): Room.tsx's addParticipant (lines 36-42) is a merge-by-id
upsert — it appends an unknown id and otherwise merges the incoming fields
into the entry with that id, preserving the list's length and every other
entry in place; but part_004's addParticipant keeps the existing entry
untouched and discards the update entirely when the id is already present
(appending only unknown ids). -/
theorem c6_addParticipant_upsert (prev : List Participant) (p : Participant) :
    ((prev.find? (fun u => u.id == p.id)) = none →
      RoomTsx.addParticipant prev p = prev ++ [p] ∧
      PartFour.addParticipant prev p = prev ++ [p]) ∧
    ((prev.find? (fun u => u.id == p.id)).isSome = true →
      (RoomTsx.addParticipant prev p).length = prev.length ∧
      (∀ i : Nat, (RoomTsx.addParticipant prev p)[i]? =
        (prev[i]?).map (fun u => if u.id == p.id then RoomTsx.mergeParticipant u p else u)) ∧
      (∀ u, p.stream = none → (RoomTsx.mergeParticipant u p).stream = u.stream) ∧
      PartFour.addParticipant prev p = prev) := by
  constructor
  · intro hnone
    have hsome : ((prev.find? (fun u => u.id == p.id)).isSome) = false := by
      rw [hnone]; rfl
    constructor
    · unfold RoomTsx.addParticipant
      rw [hsome]
      simp
    · unfold PartFour.addParticipant
      rw [hsome]
      simp
  · intro hsome
    refine ⟨?_, fun i => ?_, fun u hstr => ?_, ?_⟩
    · unfold RoomTsx.addParticipant
      rw [hsome, if_pos rfl, List.length_map]
    · unfold RoomTsx.addParticipant
      rw [hsome, if_pos rfl, List.getElem?_map]
    · unfold RoomTsx.mergeParticipant
      rw [hstr]
    · unfold PartFour.addParticipant
      rw [hsome, if_pos rfl]

/-- Witness for C6 at the concrete list: merge in Room.tsx keeps length one
and merges the fields; part_004 discards the update. -/
theorem c6_witness :
    (RoomTsx.addParticipant [c6Existing] c6Update).length = 1 ∧
    (RoomTsx.addParticipant [c6Existing] c6Update)[0]? =
      some (RoomTsx.mergeParticipant c6Existing c6Update) ∧
    PartFour.addParticipant [c6Existing] c6Update = [c6Existing] := by
  obtain ⟨hlen, hidx, _, hdisc⟩ :=
    (c6_addParticipant_upsert [c6Existing] c6Update).2 (by decide)
  refine ⟨hlen, ?_, hdisc⟩
  rw [hidx 0]
  decide

/-! C7 support lemmas -/

/-- Characters allowed in a link-safe payload: the base64 alphabet without
the plus sign. -/
def linkSafeChar (c : Char) : Bool :=
  (65 ≤ c.toNat && c.toNat ≤ 90) || (97 ≤ c.toNat && c.toNat ≤ 122) ||
  (48 ≤ c.toNat && c.toNat ≤ 57) || c.toNat == 47 || c.toNat == 61

/-- Characters allowed in a room id or passphrase for the link round trip:
alphanumeric or a hyphen. -/
def paramSafeChar (c : Char) : Bool :=
  (65 ≤ c.toNat && c.toNat ≤ 90) || (97 ≤ c.toNat && c.toNat ≤ 122) ||
  (48 ≤ c.toNat && c.toNat ≤ 57) || c.toNat == 45

/-- Characters differ when their code points do. -/
theorem char_ne_of_toNat_ne {c d : Char} (h : c.toNat ≠ d.toNat) : c ≠ d :=
  fun he => h (he ▸ rfl)

/-- A link-safe character passes the fragment serializer unchanged and is
neither a separator nor form-decoded. -/
theorem linkSafe_facts {c : Char} (h : linkSafeChar c = true) :
    inFragmentEncodeSet c = false ∧ c ≠ '&' ∧ c ≠ '+' ∧ c ≠ '%' := by
  simp only [linkSafeChar, Bool.or_eq_true, Bool.and_eq_true, decide_eq_true_eq,
    beq_iff_eq] at h
  refine ⟨?_, ?_, ?_, ?_⟩
  · simp only [inFragmentEncodeSet, Bool.or_eq_false_iff, decide_eq_false_iff_not,
      beq_eq_false_iff_ne, ne_eq, not_lt, not_le]
    omega
  · exact char_ne_of_toNat_ne (by show c.toNat ≠ 38; omega)
  · exact char_ne_of_toNat_ne (by show c.toNat ≠ 43; omega)
  · exact char_ne_of_toNat_ne (by show c.toNat ≠ 37; omega)

/-- A param-safe character additionally is not an equals sign. -/
theorem paramSafe_facts {c : Char} (h : paramSafeChar c = true) :
    inFragmentEncodeSet c = false ∧ c ≠ '&' ∧ c ≠ '+' ∧ c ≠ '%' ∧ c ≠ '=' := by
  simp only [paramSafeChar, Bool.or_eq_true, Bool.and_eq_true, decide_eq_true_eq,
    beq_iff_eq] at h
  refine ⟨?_, ?_, ?_, ?_, ?_⟩
  · simp only [inFragmentEncodeSet, Bool.or_eq_false_iff, decide_eq_false_iff_not,
      beq_eq_false_iff_ne, ne_eq, not_lt, not_le]
    omega
  · exact char_ne_of_toNat_ne (by show c.toNat ≠ 38; omega)
  · exact char_ne_of_toNat_ne (by show c.toNat ≠ 43; omega)
  · exact char_ne_of_toNat_ne (by show c.toNat ≠ 37; omega)
  · exact char_ne_of_toNat_ne (by show c.toNat ≠ 61; omega)

/-- The fragment serializer is the identity on characters outside the
encode set. -/
theorem fragmentEncodeChars_id (l : List Char)
    (h : ∀ c ∈ l, inFragmentEncodeSet c = false) : fragmentEncodeChars l = l := by
  induction l with
  | nil => rfl
  | cons c t ih =>
      have hc : inFragmentEncodeSet c = false := h c (List.mem_cons_self c t)
      have ht : ∀ x ∈ t, inFragmentEncodeSet x = false :=
        fun x hx => h x (List.mem_cons_of_mem c hx)
      simp only [fragmentEncodeChars, List.foldr_cons, hc, Bool.false_eq_true, if_false]
      exact congrArg (c :: ·) (ih ht)

/-- The form decoding is the identity on inputs without '+' or '%'. -/
theorem formDecodeAux_id : ∀ (fuel : Nat) (l : List Char), l.length ≤ fuel →
    (∀ c ∈ l, c ≠ '+' ∧ c ≠ '%') → formDecodeAux fuel l = l := by
  intro fuel
  induction fuel with
  | zero =>
      intro l hlen _
      rw [List.length_eq_zero.mp (Nat.le_zero.mp hlen)]
      rfl
  | succ n ih =>
      intro l hlen h
      cases l with
      | nil => rfl
      | cons c t =>
          have hc := h c (List.mem_cons_self c t)
          have ht : ∀ x ∈ t, x ≠ '+' ∧ x ≠ '%' :=
            fun x hx => h x (List.mem_cons_of_mem c hx)
          have hp : (c == '+') = false := by
            simp only [beq_eq_false_iff_ne, ne_eq]; exact hc.1
          have hpc : (c == '%') = false := by
            simp only [beq_eq_false_iff_ne, ne_eq]; exact hc.2
          have hlt : t.length ≤ n := by
            simp only [List.length_cons] at hlen; omega
          rw [formDecodeAux.eq_def]
          simp only [hp, hpc, Bool.false_eq_true, if_false]
          exact congrArg (c :: ·) (ih t hlt ht)

/-- The form decoding is the identity on inputs without '+' or '%'. -/
theorem formDecodeChars_id (l : List Char)
    (h : ∀ c ∈ l, c ≠ '+' ∧ c ≠ '%') : formDecodeChars l = l :=
  formDecodeAux_id l.length l le_rfl h

/-- Splitting a separator-free list yields that list alone. -/
theorem splitOnChar_no_sep (sep : Char) (l : List Char)
    (h : ∀ c ∈ l, c ≠ sep) : splitOnChar sep l = [l] := by
  induction l with
  | nil => rfl
  | cons c t ih =>
      have hc : (c == sep) = false := by
        simp only [beq_eq_false_iff_ne, ne_eq]; exact h c (List.mem_cons_self c t)
      have ht : ∀ x ∈ t, x ≠ sep := fun x hx => h x (List.mem_cons_of_mem c hx)
      rw [splitOnChar, ih ht]
      simp [hc]

/-- Splitting peels off a separator-free prefix before a separator. -/
theorem splitOnChar_append (sep : Char) (a b : List Char)
    (h : ∀ c ∈ a, c ≠ sep) :
    splitOnChar sep (a ++ sep :: b) = a :: splitOnChar sep b := by
  induction a with
  | nil => simp [splitOnChar]
  | cons c t ih =>
      have hc : (c == sep) = false := by
        simp only [beq_eq_false_iff_ne, ne_eq]; exact h c (List.mem_cons_self c t)
      have ht : ∀ x ∈ t, x ≠ sep := fun x hx => h x (List.mem_cons_of_mem c hx)
      rw [List.cons_append, splitOnChar, ih ht]
      simp [hc]

/-- A pair splits at its first equals sign. -/
theorem splitPair_no_eq (n v : List Char) (h : ∀ c ∈ n, c ≠ '=') :
    splitPair (n ++ '=' :: v) = (n, v) := by
  induction n with
  | nil => simp [splitPair]
  | cons c t ih =>
      have hc : (c == '=') = false := by
        simp only [beq_eq_false_iff_ne, ne_eq]; exact h c (List.mem_cons_self c t)
      have ht : ∀ x ∈ t, x ≠ '=' := fun x hx => h x (List.mem_cons_of_mem c hx)
      rw [List.cons_append, splitPair, ih ht]
      simp [hc]

/-- A list is a prefix of itself extended. -/
theorem isPrefixOf_self_append (n b : List Char) :
    List.isPrefixOf n (n ++ b) = true := by
  induction n with
  | nil => simp [List.isPrefixOf]
  | cons c t ih => simp [List.isPrefixOf, ih]

/-- Containment is preserved by extending on the left. -/
theorem listContainsSub_append_left (a b n : List Char)
    (h : listContainsSub b n = true) : listContainsSub (a ++ b) n = true := by
  induction a with
  | nil => simpa using h
  | cons c t ih =>
      rw [List.cons_append, listContainsSub]
      simp only [Bool.or_eq_true]
      exact Or.inr ih

/-- URLSearchParams parsing of the fragment built by getInviteLink recovers
the offer value verbatim when the room id and passphrase are param-safe and
the payload is link-safe (base64 without '+'). -/
theorem getParam_fragment (rid pw sdp : List Char)
    (hr : ∀ c ∈ rid, paramSafeChar c = true)
    (hp : ∀ c ∈ pw, paramSafeChar c = true)
    (ho : ∀ c ∈ sdp, linkSafeChar c = true) :
    getParamChars (RoomTsx.mkFragmentChars rid pw sdp) "offer".data = some sdp := by
  have hA : ∀ c ∈ ("room=".data ++ rid), c ≠ '&' := by
    intro c hc
    rcases List.mem_append.mp hc with hc | hc
    · fin_cases hc <;> decide
    · exact (paramSafe_facts (hr c hc)).2.1
  have hB : ∀ c ∈ ("pass=".data ++ pw), c ≠ '&' := by
    intro c hc
    rcases List.mem_append.mp hc with hc | hc
    · fin_cases hc <;> decide
    · exact (paramSafe_facts (hp c hc)).2.1
  have hC : ∀ c ∈ ("offer=".data ++ sdp), c ≠ '&' := by
    intro c hc
    rcases List.mem_append.mp hc with hc | hc
    · fin_cases hc <;> decide
    · exact (linkSafe_facts (ho c hc)).2.1
  have hshape : RoomTsx.mkFragmentChars rid pw sdp
      = ("room=".data ++ rid) ++ '&' :: (("pass=".data ++ pw) ++ '&' :: ("offer=".data ++ sdp)) := by
    unfold RoomTsx.mkFragmentChars
    rw [show ("&pass=".data : List Char) = '&' :: "pass=".data from rfl,
        show ("&offer=".data : List Char) = '&' :: "offer=".data from rfl]
    simp [List.append_assoc]
  unfold getParamChars parseParamsChars
  rw [hshape, splitOnChar_append '&' _ _ hA, splitOnChar_append '&' _ _ hB,
      splitOnChar_no_sep '&' _ hC]
  rw [show ("room=".data ++ rid) = "room".data ++ '=' :: rid from rfl,
      show ("pass=".data ++ pw) = "pass".data ++ '=' :: pw from rfl,
      show ("offer=".data ++ sdp) = "offer".data ++ '=' :: sdp from rfl]
  simp only [List.filterMap_cons, List.filterMap_nil]
  rw [show (("room".data ++ '=' :: rid).isEmpty) = false from rfl,
      show (("pass".data ++ '=' :: pw).isEmpty) = false from rfl,
      show (("offer".data ++ '=' :: sdp).isEmpty) = false from rfl]
  rw [splitPair_no_eq "room".data rid (by intro c hc; fin_cases hc <;> decide),
      splitPair_no_eq "pass".data pw (by intro c hc; fin_cases hc <;> decide),
      splitPair_no_eq "offer".data sdp (by intro c hc; fin_cases hc <;> decide)]
  simp only [Bool.false_eq_true, if_false]
  rw [show formDecodeChars "room".data = "room".data from rfl,
      show formDecodeChars "pass".data = "pass".data from rfl,
      show formDecodeChars "offer".data = "offer".data from rfl]
  rw [List.find?]
  rw [show (("room".data == "offer".data) : Bool) = false from rfl]
  rw [List.find?]
  rw [show (("pass".data == "offer".data) : Bool) = false from rfl]
  rw [List.find?]
  rw [show (("offer".data == "offer".data) : Bool) = true from rfl]
  have hsdp : formDecodeChars sdp = sdp :=
    formDecodeChars_id sdp (fun c hc =>
      ⟨(linkSafe_facts (ho c hc)).2.2.1, (linkSafe_facts (ho c hc)).2.2.2⟩)
  simp [hsdp]

/-- String concatenation concatenates the character data. -/
theorem strData_append (a b : String) : (a ++ b).data = a.data ++ b.data := rfl

/-- A prefix is contained. -/
theorem listContainsSub_of_isPrefixOf (hay needle : List Char)
    (h : List.isPrefixOf needle hay = true) : listContainsSub hay needle = true := by
  cases hay with
  | nil =>
      cases needle with
      | nil => rfl
      | cons c t => simp [List.isPrefixOf] at h
  | cons c t =>
      rw [listContainsSub]
      simp [h]

/-- C7 (amended): getInviteLink produces base#room=roomId&pass=passphrase&
offer=localSDP, and a receiver opening that link with a non-empty payload
auto-populates role = receiver with a remote payload equal to the encoded
payload — provided the payload contains no '+' (and room id and passphrase
are alphanumeric or hyphen): URLSearchParams' form decoding turns '+' into
a space, so the round trip preserves exactly the plus-free payloads. -/
theorem c7_invite_link_roundtrip (cfg : RoomCfg) (base : String) (s s0 : RoomState)
    (hr : ∀ c ∈ cfg.roomId.data, paramSafeChar c = true)
    (hp : ∀ c ∈ cfg.passphrase.data, paramSafeChar c = true)
    (ho : ∀ c ∈ s.localSDP.data, linkSafeChar c = true)
    (hne : s.localSDP ≠ "") :
    (RoomTsx.getInviteLink cfg base s).data
      = base.data ++ '#' :: RoomTsx.mkFragmentChars cfg.roomId.data cfg.passphrase.data s.localSDP.data ∧
    (RoomTsx.initHashApply s0 (String.mk ('#' ::
        RoomTsx.mkFragmentChars cfg.roomId.data cfg.passphrase.data s.localSDP.data))).role
      = HandshakeRole.receiver ∧
    (RoomTsx.initHashApply s0 (String.mk ('#' ::
        RoomTsx.mkFragmentChars cfg.roomId.data cfg.passphrase.data s.localSDP.data))).remoteSDPInput
      = s.localSDP := by
  have hfrag : ∀ c ∈ RoomTsx.mkFragmentChars cfg.roomId.data cfg.passphrase.data s.localSDP.data,
      inFragmentEncodeSet c = false := by
    intro c hc
    unfold RoomTsx.mkFragmentChars at hc
    simp only [List.mem_append, or_assoc] at hc
    rcases hc with hc | hc | hc | hc | hc | hc
    · fin_cases hc <;> decide
    · exact (paramSafe_facts (hr c hc)).1
    · fin_cases hc <;> decide
    · exact (paramSafe_facts (hp c hc)).1
    · fin_cases hc <;> decide
    · exact (linkSafe_facts (ho c hc)).1
  have hshape : RoomTsx.mkFragmentChars cfg.roomId.data cfg.passphrase.data s.localSDP.data
      = ('#' :: (("room=".data ++ cfg.roomId.data) ++ '&' ::
          (("pass=".data ++ cfg.passphrase.data) ++ ['&']))).tail
        ++ ("offer=".data ++ s.localSDP.data) := by
    unfold RoomTsx.mkFragmentChars
    rw [show ("&pass=".data : List Char) = '&' :: "pass=".data from rfl,
        show ("&offer=".data : List Char) = '&' :: "offer=".data from rfl]
    simp [List.append_assoc]
  have hcontains : listContainsSub
      ('#' :: RoomTsx.mkFragmentChars cfg.roomId.data cfg.passphrase.data s.localSDP.data)
      "offer=".data = true := by
    rw [hshape]
    rw [show ('#' :: ((('#' :: (("room=".data ++ cfg.roomId.data) ++ '&' ::
          (("pass=".data ++ cfg.passphrase.data) ++ ['&']))).tail)
        ++ ("offer=".data ++ s.localSDP.data)))
      = ('#' :: (('#' :: (("room=".data ++ cfg.roomId.data) ++ '&' ::
          (("pass=".data ++ cfg.passphrase.data) ++ ['&']))).tail))
        ++ ("offer=".data ++ s.localSDP.data) from rfl]
    exact listContainsSub_append_left _ _ _
      (listContainsSub_of_isPrefixOf _ _ (isPrefixOf_self_append _ _))
  have hdata : s.localSDP.data.isEmpty = false := by
    cases hc : s.localSDP.data with
    | nil =>
        exact absurd (show s.localSDP = "" by
          rw [show s.localSDP = String.mk s.localSDP.data from rfl, hc]) hne
    | cons a t => rfl
  refine ⟨?_, ?_, ?_⟩
  · unfold RoomTsx.getInviteLink
    rw [strData_append, strData_append]
    rw [fragmentEncodeChars_id _ hfrag]
    rw [List.append_assoc]
    rfl
  · unfold RoomTsx.initHashApply
    rw [show (String.mk ('#' :: RoomTsx.mkFragmentChars cfg.roomId.data
          cfg.passphrase.data s.localSDP.data)).data
        = '#' :: RoomTsx.mkFragmentChars cfg.roomId.data cfg.passphrase.data s.localSDP.data
        from rfl]
    rw [hcontains]
    rw [show (('#' :: RoomTsx.mkFragmentChars cfg.roomId.data cfg.passphrase.data
          s.localSDP.data).drop 1)
        = RoomTsx.mkFragmentChars cfg.roomId.data cfg.passphrase.data s.localSDP.data
        from rfl]
    rw [getParam_fragment _ _ _ hr hp ho]
    dsimp only
    rw [hdata]
    rfl
  · unfold RoomTsx.initHashApply
    rw [show (String.mk ('#' :: RoomTsx.mkFragmentChars cfg.roomId.data
          cfg.passphrase.data s.localSDP.data)).data
        = '#' :: RoomTsx.mkFragmentChars cfg.roomId.data cfg.passphrase.data s.localSDP.data
        from rfl]
    rw [hcontains]
    rw [show (('#' :: RoomTsx.mkFragmentChars cfg.roomId.data cfg.passphrase.data
          s.localSDP.data).drop 1)
        = RoomTsx.mkFragmentChars cfg.roomId.data cfg.passphrase.data s.localSDP.data
        from rfl]
    rw [getParam_fragment _ _ _ hr hp ho]
    dsimp only
    rw [hdata]
    rfl

/-- An offer whose base64 payload contains a '+': the JSON of this offer is
eyJ0eXBlIjoib2ZmZXIiLCJzZHAiOiI+Pj4ifQ== in base64. -/
def c7PlusDesc : SessionDesc := ⟨"offer", ">>>"⟩

/-- The generated invite payload of that offer: btoa of its JSON. -/
def c7PlusSdp : String := btoaStr (descToJson c7PlusDesc)

/-- A session whose finalized local payload is that base64 string. -/
def c7State : RoomState := { baseState with localSDP := c7PlusSdp }

/-- The hash the invite link of that session carries. -/
def c7Hash : String :=
  String.mk ('#' :: fragmentEncodeChars
    (RoomTsx.mkFragmentChars "room1".data "pw1".data c7PlusSdp.data))

/-- C7 counterexample: the claim says the encode-then-parse round trip
preserves the payload for every generated offer. For this generated offer
the base64 payload contains '+', the link is produced as claimed, the
receiver role is auto-populated, but URLSearchParams decodes '+' to a space,
so the populated remote payload differs from the payload encoded into the
link. -/
theorem c7_counterexample :
    c7PlusSdp.data.contains '+' = true ∧
    RoomTsx.getInviteLink c2Cfg "https://sl.example/app" c7State
      = "https://sl.example/app" ++ c7Hash ∧
    (RoomTsx.initHashApply baseState c7Hash).role = HandshakeRole.receiver ∧
    (RoomTsx.initHashApply baseState c7Hash).remoteSDPInput ≠ c7State.localSDP := by
  refine ⟨by decide, by decide, by decide, by decide⟩

/-- Witness for C7 at a concrete plus-free payload. -/
theorem c7_witness :
    (RoomTsx.getInviteLink c2Cfg "https://sl.example/app"
        { baseState with localSDP := "QUJD" }).data
      = "https://sl.example/app".data ++ '#' ::
        RoomTsx.mkFragmentChars "room1".data "pw1".data "QUJD".data ∧
    (RoomTsx.initHashApply baseState (String.mk ('#' ::
        RoomTsx.mkFragmentChars "room1".data "pw1".data "QUJD".data))).role
      = HandshakeRole.receiver ∧
    (RoomTsx.initHashApply baseState (String.mk ('#' ::
        RoomTsx.mkFragmentChars "room1".data "pw1".data "QUJD".data))).remoteSDPInput
      = "QUJD" :=
  c7_invite_link_roundtrip c2Cfg "https://sl.example/app"
    { baseState with localSDP := "QUJD" } baseState
    (by decide) (by decide) (by decide) (by decide)

/-! ## Claim C8: connectivity failure and the grace period -/

/-- The local participant of the concrete connected session. -/
def c8Local : Participant := ⟨"local", "alice", true, true, true, true, some 1⟩

/-- The remote participant of the concrete connected session. -/
def c8Peer : Participant := ⟨"peer", "远端成员", false, false, true, true, some 2⟩

/-- A fully connected two-party session. -/
def c8State : RoomState :=
  { baseState with participants := [c8Local, c8Peer], role := .initiator,
                   connectionStatus := .connected, handshakeStep := 2,
                   localSDP := "QQ==", remoteSDPInput := "UlI=",
                   peers := [("peer", ⟨.connectedSt, true, some ⟨"offer", "v0"⟩,
                             some ⟨"answer", "v0"⟩⟩)],
                   dataChannels := [("peer", ChanReady.openCh)],
                   encryptionKey := some [5] }

/-- C8 counterexample: the claim says a connectivity failure is not
instantly fatal and a grace period of several seconds elapses before
teardown. In Room.tsx (lines 108-116) the onconnectionstatechange handler
itself performs the whole teardown in the same synchronous invocation: on a
disconnected report the remote participant is removed, the connection map
emptied and the session reset to idle with payloads cleared — with no timer
or delay construct of any kind, a transient blip cannot recover. -/
theorem c8_counterexample :
    RoomTsx.onConnectionStateChange c8State "peer" PcState.disconnected
      = { c8State with participants := [c8Local], connectionStatus := .idle,
                       role := .noneRole, localSDP := "", remoteSDPInput := "",
                       handshakeStep := 1, countdown := 180, peers := [],
                       dataChannels := [] } := by decide

/-- C8 (amended): a connection-state report of disconnected, failed or
closed tears the session down immediately within the same handler call:
the participant with that id is removed at once, and when no peer remains
the session collapses to idle with role cleared, both payloads erased and
the countdown restored — there is no grace period. -/
theorem c8_no_grace_period (s : RoomState) (id : String) (st : PcState)
    (h : st = .disconnected ∨ st = .failed ∨ st = .closed) :
    (RoomTsx.onConnectionStateChange s id st).participants
      = s.participants.filter (fun u => u.id ≠ id) ∧
    ((RoomTsx.removeParticipant { s with peers := RoomTsx.setPeerState s.peers id st }
        id).peers.isEmpty = true →
      (RoomTsx.onConnectionStateChange s id st).connectionStatus = ConnStatus.idle ∧
      (RoomTsx.onConnectionStateChange s id st).role = HandshakeRole.noneRole ∧
      (RoomTsx.onConnectionStateChange s id st).localSDP = "" ∧
      (RoomTsx.onConnectionStateChange s id st).remoteSDPInput = "" ∧
      (RoomTsx.onConnectionStateChange s id st).countdown = 180) := by
  rcases h with rfl | rfl | rfl <;>
    unfold RoomTsx.onConnectionStateChange <;>
    rw [if_pos (by first
      | exact Or.inl rfl
      | exact Or.inr (Or.inl rfl)
      | exact Or.inr (Or.inr rfl))] <;>
    (first
      | rw [if_neg (show ¬(PcState.disconnected = PcState.connectedSt) from by decide)]
      | rw [if_neg (show ¬(PcState.failed = PcState.connectedSt) from by decide)]
      | rw [if_neg (show ¬(PcState.closed = PcState.connectedSt) from by decide)]) <;>
    dsimp only <;>
    (refine ⟨?_, fun hEmp => ?_⟩
     · split <;> rfl
     · rw [if_pos hEmp]
       exact ⟨rfl, rfl, rfl, rfl, rfl⟩)

/-- Witness for C8 at the concrete connected session. -/
theorem c8_witness :
    (RoomTsx.onConnectionStateChange c8State "peer" PcState.disconnected).participants
      = c8State.participants.filter (fun u => u.id ≠ "peer") ∧
    (RoomTsx.onConnectionStateChange c8State "peer" PcState.disconnected).connectionStatus
      = ConnStatus.idle ∧
    (RoomTsx.onConnectionStateChange c8State "peer" PcState.disconnected).localSDP = "" := by
  obtain ⟨hpart, himp⟩ :=
    c8_no_grace_period c8State "peer" PcState.disconnected (Or.inl rfl)
  obtain ⟨hidle, _, hsdp, _, _⟩ := himp (by decide)
  exact ⟨hpart, hidle, hsdp⟩

/-! ## Claim C9: inbound file chunk accumulation and finalization -/

/-- C9: for a pending inbound transfer with a key, a chunk whose payload
decrypts accumulates its decrypted bytes into the receive state, sets the
transfer's progress to round(100 * receivedBytes / size), and — exactly when
receivedBytes ≥ size first holds — assembles the chunks into the retrievable
message blob, marks the transfer completed and discards the receive state;
below the size threshold the state is kept and nothing is finalized. -/
theorem c9_chunk_accumulation (s : RoomState) (st : RecvFileState) (k : List Nat)
    (data : List Nat) (now : Nat) (chunk : List Nat)
    (hs : s.receivingFile = some st) (hk : s.encryptionKey = some k)
    (hd : decryptBuffer k (data.drop 12) (data.take 12) = some chunk) :
    (st.received + chunk.length < st.size →
      (RoomTsx.handleFileChunkReceive s data now).1.receivingFile
        = some { st with chunks := st.chunks ++ [chunk],
                         received := st.received + chunk.length } ∧
      (RoomTsx.handleFileChunkReceive s data now).1.files
        = s.files.map (fun f => if f.id == st.id then
            { f with progress := progressOf (st.received + chunk.length) st.size }
          else f) ∧
      (RoomTsx.handleFileChunkReceive s data now).1.messages = s.messages) ∧
    (st.size ≤ st.received + chunk.length →
      (RoomTsx.handleFileChunkReceive s data now).1.receivingFile = none ∧
      (RoomTsx.handleFileChunkReceive s data now).1.messages
        = s.messages ++ [RoomTsx.mkFileDoneMsg
            { st with chunks := st.chunks ++ [chunk],
                      received := st.received + chunk.length } now] ∧
      (RoomTsx.handleFileChunkReceive s data now).1.files
        = (s.files.map (fun f => if f.id == st.id then
            { f with progress := progressOf (st.received + chunk.length) st.size }
          else f)).map
          (fun f => if f.id == st.id then { f with status := FTStatus.completed }
           else f)) := by
  unfold RoomTsx.handleFileChunkReceive
  rw [hs, hk]
  dsimp only
  rw [hd]
  dsimp only
  constructor
  · intro hlt
    rw [if_neg (show ¬(st.size ≤ st.received + chunk.length) from by omega)]
    exact ⟨rfl, rfl, rfl⟩
  · intro hge
    rw [if_pos (show st.size ≤ st.received + chunk.length from hge)]
    exact ⟨rfl, rfl, rfl⟩

/-- The receive state, key, chunk and wire bytes used by the C9 and C10
witnesses. -/
def c9St : RecvFileState := ⟨"f1", "a.bin", 4, 0, [], some "text/plain"⟩

/-- A session with that pending transfer and a key. -/
def c9State : RoomState :=
  { baseState with connectionStatus := .connected,
                   files := [⟨"f1", "a.bin", 4, 0, FTStatus.transferring, some "text/plain"⟩],
                   encryptionKey := some [3], receivingFile := some c9St }

/-- The wire bytes of one encrypted two-byte chunk: 12-byte IV then the
ciphertext with its tag. -/
def c9Data : List Nat :=
  [1, 2, 3, 4, 5, 6, 7, 8, 9, 10, 11, 12] ++
    (encryptBuffer [3] [1, 2, 3, 4, 5, 6, 7, 8, 9, 10, 11, 12] [9, 8]).data

/-- Witness for C9: the concrete two-byte chunk against the four-byte
transfer accumulates without finalizing. -/
theorem c9_witness :
    (RoomTsx.handleFileChunkReceive c9State c9Data 42).1.receivingFile
      = some { c9St with chunks := c9St.chunks ++ [[9, 8]],
                         received := c9St.received + 2 } ∧
    (RoomTsx.handleFileChunkReceive c9State c9Data 42).1.messages = c9State.messages := by
  obtain ⟨hacc, -⟩ :=
    c9_chunk_accumulation c9State c9St [3] c9Data 42 [9, 8]
      (by rfl) (by rfl) (by decide)
  obtain ⟨hrecv, -, hmsg⟩ := hacc (by decide)
  exact ⟨hrecv, hmsg⟩

/-! ## Claim C10: the single receive slot -/

/-- C10: a file-meta envelope unconditionally replaces the single
receive-state slot with a fresh state (zero received bytes, empty chunk
list) and prepends a transferring entry to the files list — whatever
transfer was in progress is discarded; and a binary chunk arriving with no
pending transfer is dropped with no state change and no effect at all. -/
theorem c10_single_receive_slot (s : RoomState) (m : FileMeta)
    (data : List Nat) (now : Nat) :
    (RoomTsx.handleFileMetaReceive s m).receivingFile
      = some ⟨m.id, m.name, m.size, 0, [], m.mimeType⟩ ∧
    (RoomTsx.handleFileMetaReceive s m).files
      = ⟨m.id, m.name, m.size, 0, FTStatus.transferring, m.mimeType⟩ :: s.files ∧
    (s.receivingFile = none → RoomTsx.handleFileChunkReceive s data now = (s, [])) := by
  refine ⟨rfl, rfl, fun hnone => ?_⟩
  unfold RoomTsx.handleFileChunkReceive
  rw [hnone]

/-- An in-progress transfer about to be clobbered by a new file-meta. -/
def c10State : RoomState :=
  { baseState with encryptionKey := some [3],
                   receivingFile := some ⟨"f1", "a.bin", 4, 2, [[9, 8]], none⟩ }

/-- Witness for C10: a new meta replaces the in-progress state, dropping its
accumulated chunks; a chunk with no pending state changes nothing. -/
theorem c10_witness :
    (RoomTsx.handleFileMetaReceive c10State ⟨"f2", "b.bin", 7, none⟩).receivingFile
      = some ⟨"f2", "b.bin", 7, 0, [], none⟩ ∧
    (RoomTsx.handleFileMetaReceive c10State ⟨"f2", "b.bin", 7, none⟩).files
      = ⟨"f2", "b.bin", 7, 0, FTStatus.transferring, none⟩ :: c10State.files ∧
    RoomTsx.handleFileChunkReceive baseState c9Data 42 = (baseState, []) := by
  obtain ⟨hslot, hfiles, -⟩ :=
    c10_single_receive_slot c10State ⟨"f2", "b.bin", 7, none⟩ c9Data 42
  obtain ⟨-, -, hdrop⟩ :=
    c10_single_receive_slot baseState ⟨"f2", "b.bin", 7, none⟩ c9Data 42
  exact ⟨hslot, hfiles, hdrop rfl⟩
